import Mathlib

/-!
Shallow embedding of the mailproto/smtpd SMTP server (Go) in Lean 4.

The embedding follows the repository's current sources: the message/MIME
layer (message.go: Message, Part, NewMessage, Parts, FindBody, BCC, ID,
readToPart, parseContent), the connection state (conn.go: Conn, StartTX,
EndTX, Reset, WriteSMTP, WriteEHLO), the auth framework (auth.go: Auth,
AuthPlain) and the per-command dispatch of Server.HandleSMTP (smtp.go).

Go standard-library collaborators (net/mail header reading, mime media-type
parsing, mime/quotedprintable, encoding/base64, mime/multipart) are modelled
as explicit Lean functions; each such model carries a doc comment naming the
Go function it stands for.  Go byte slices and strings are both modelled as
Lean String (the repository only handles text), a Go nil pointer of type
*Part is modelled as none : Option Part, and a Go error is modelled as the
error's message String (Except String).  String manipulation is written over
the character list s.data with structural recursion, so every definition
evaluates inside the kernel.
-/

namespace Smtpd

/-! ## String toolkit (structurally recursive stand-ins for Go's strings) -/

/-- strings.ToLower (ASCII). -/
def lower (s : String) : String := String.mk (s.data.map Char.toLower)

/-- strings.ToUpper (ASCII). -/
def upper (s : String) : String := String.mk (s.data.map Char.toUpper)

/-- Split a character list at every occurrence of the separator. -/
def splitCharL (sep : Char) : List Char → List (List Char)
  | [] => [[]]
  | a :: t =>
    match splitCharL sep t with
    | [] => [[a]]
    | h :: rest => if a = sep then [] :: h :: rest else (a :: h) :: rest

/-- strings.Split with a one-character separator. -/
def splitChar (sep : Char) (s : String) : List String := (splitCharL sep s.data).map String.mk

/-- strings.Join. -/
def joinWith (sep : String) : List String → String
  | [] => ""
  | [x] => x
  | x :: xs => x ++ sep ++ joinWith sep xs

/-- strings.SplitN with a one-character separator, n > 0. -/
def splitN (s : String) (sep : Char) (n : Nat) : List String :=
  let parts := splitChar sep s
  if parts.length ≤ n then parts
  else parts.take (n - 1) ++ [joinWith (String.mk [sep]) (parts.drop (n - 1))]

/-- strings.TrimSpace. -/
def trimS (s : String) : String :=
  String.mk (((s.data.dropWhile Char.isWhitespace).reverse.dropWhile Char.isWhitespace).reverse)

/-- strings.HasPrefix. -/
def startsWithS (s pre : String) : Bool := pre.data.isPrefixOf s.data

/-- strings.HasSuffix. -/
def endsWithS (s suf : String) : Bool := suf.data.isSuffixOf s.data

/-- Drop the first n characters. -/
def dropS (s : String) (n : Nat) : String := String.mk (s.data.drop n)

/-- Drop the last n characters. -/
def dropRightS (s : String) (n : Nat) : String := String.mk (s.data.take (s.data.length - n))

/-- A parsed RFC 5322 mailbox, modelling Go's net/mail.Address. -/
structure Address where
  Name : String
  Address : String
deriving DecidableEq, Repr

/-- A header block, modelling Go's textproto.MIMEHeader / mail.Header
restricted to single-valued keys (the repository only reads first values). -/
abbrev Header := List (String × String)

/-- Model of MIMEHeader.Get / mail.Header.Get: Go canonicalises the key on
both store and lookup, which amounts to a case-insensitive match; absent keys
give the empty string. -/
def getHeader (h : Header) (key : String) : String :=
  match h.find? (fun kv => lower kv.fst = lower key) with
  | some kv => kv.snd
  | none => ""

/-- RFC 2045 token characters, as in Go's mime.isTokenChar. -/
def isTokenChar (c : Char) : Bool :=
  0x20 < c.val && c.val < 0x7f && !(("()<>@,;:\\\"/[]?=".toList).contains c)

/-- A media type is a token, optionally a token slash token. -/
def validMediaType (mt : String) : Bool :=
  match splitChar ('/') mt with
  | [t] => t ≠ "" && t.toList.all isTokenChar
  | [t, sub] => t ≠ "" && sub ≠ "" && t.toList.all isTokenChar && sub.toList.all isTokenChar
  | _ => false

/-- One parameter segment of a Content-Type value: key=value with optional
quotes around the value. -/
def parseParam (seg : String) : Option (String × String) :=
  match splitN seg ('=') 2 with
  | [k, v] =>
    let v := trimS v
    let v := if startsWithS v ("\"") && endsWithS v ("\"") && 2 ≤ v.length
      then dropRightS (dropS v 1) 1 else v
    some (lower (trimS k), v)
  | _ => none

/-- Model of Go's mime.ParseMediaType: the part before the first semicolon,
trimmed and lower-cased, is the media type (empty gives the error
"mime: no media type"); the remaining semicolon-separated segments are
key=value parameters.  Parameter-syntax errors are not modelled (no claim
depends on them); the boundary parameter is what the repository reads. -/
def parseMediaType (ct : String) : Except String (String × List (String × String)) :=
  let pieces := splitChar (';') ct
  let mediatype := lower (trimS (pieces.headD ("")))
  if mediatype = "" then .error ("mime: no media type")
  else if !validMediaType mediatype then .error ("mime: invalid media type")
  else .ok (mediatype, (pieces.drop 1).filterMap parseParam)

/-- Hexadecimal digit value, as accepted by Go's quotedprintable reader. -/
def hexVal (c : Char) : Option Nat :=
  if '0' ≤ c && c ≤ '9' then some (c.toNat - ('0').toNat)
  else if 'A' ≤ c && c ≤ 'F' then some (c.toNat - ('A').toNat + 10)
  else if 'a' ≤ c && c ≤ 'f' then some (c.toNat - ('a').toNat + 10)
  else none

/-- Model of Go's mime/quotedprintable.Reader: "=XY" with X,Y hex decodes to
one byte, "=" before a line break is a soft break, any other use of "=" is an
error, every other byte passes through. -/
def qpDecodeList : List Char → Except String (List Char)
  | [] => .ok []
  | '=' :: rest =>
    match rest with
    | '\r' :: '\n' :: t => qpDecodeList t
    | '\n' :: t => qpDecodeList t
    | a :: b :: t =>
      match hexVal a, hexVal b with
      | some x, some y => (qpDecodeList t).map (fun l => Char.ofNat (16 * x + y) :: l)
      | _, _ => .error ("quotedprintable: invalid hex byte")
    | _ => .error ("quotedprintable: invalid bytes after =")
  | c :: t => (qpDecodeList t).map (fun l => c :: l)

/-- Decode of quoted-printable content presented as a String. -/
def qpDecode (s : String) : Except String String :=
  (qpDecodeList s.toList).map (fun l => String.mk l)

/-- The standard base64 alphabet position of a character, if any. -/
def b64Val (c : Char) : Option Nat :=
  (("ABCDEFGHIJKLMNOPQRSTUVWXYZabcdefghijklmnopqrstuvwxyz0123456789+/".toList).indexOf? c).map (fun i => i)

/-- Decode base64 quantums of four characters; padding ends the data, as in
Go's encoding/base64 StdEncoding. -/
def b64Groups : List Char → Except String (List Char)
  | [] => .ok []
  | a :: b :: c :: d :: t =>
    match b64Val a, b64Val b with
    | some x, some y =>
      if c = '=' then
        if d = '=' && t = [] then .ok [Char.ofNat ((x * 4 + y / 16) % 256)]
        else .error ("illegal base64 data")
      else
        match b64Val c with
        | some z =>
          if d = '=' then
            if t = [] then
              .ok [Char.ofNat ((x * 4 + y / 16) % 256), Char.ofNat ((y % 16 * 16 + z / 4) % 256)]
            else .error ("illegal base64 data")
          else
            match b64Val d with
            | some w =>
              (b64Groups t).map (fun l =>
                Char.ofNat ((x * 4 + y / 16) % 256) ::
                Char.ofNat ((y % 16 * 16 + z / 4) % 256) ::
                Char.ofNat ((z % 4 * 64 + w) % 256) :: l)
            | none => .error ("illegal base64 data")
        | none => .error ("illegal base64 data")
    | _, _ => .error ("illegal base64 data")
  | _ => .error ("illegal base64 data")

/-- Model of Go's base64.StdEncoding.Decode: line breaks are skipped, then
the data is decoded in quantums of four. -/
def b64Decode (s : String) : Except String String :=
  (b64Groups (s.toList.filter (fun c => c ≠ '\r' && c ≠ '\n'))).map
    (fun l => String.mk l)

/-- A node of the MIME tree (message.go).  Go's []*Part is modelled as
List (Option Part): a none is a nil *Part. -/
structure Part where
  Header : Header
  Body : String
  Children : List (Option Part)

/-- readToPart (message.go): transfer-decode one leaf according to the
Content-Transfer-Encoding header, compared after strings.ToLower. -/
def readToPart (header : Header) (content : String) : Except String Part :=
  let cte := lower (getHeader header ("Content-Transfer-Encoding"))
  let slurpE := if cte = "quoted-printable" then qpDecode content else .ok content
  match slurpE with
  | .error e => .error e
  | .ok slurp =>
    if cte = "base64" then
      match b64Decode slurp with
      | .error e => .error e
      | .ok dst => .ok { Header := header, Body := dst, Children := [] }
    else .ok { Header := header, Body := slurp, Children := [] }

/-- The message a Go nil-pointer dereference would abort with; the embedding
returns it as an error value where the Go code would panic. -/
def goNilPanic : String := "runtime error: invalid memory address or nil pointer dereference"

/-- Strip one trailing carriage return, as Go's textproto line reader does. -/
def stripCR (s : String) : String := if endsWithS s ("\r") then dropRightS s 1 else s

/-- Split into lines on the newline byte. -/
def toLines (s : String) : List String := (splitChar ('\n') s).map stripCR

/-- Read a sub-part's header block up to the blank line (model of the header
reading inside Go's multipart.Reader.NextPart). -/
def parsePartHeader : List String → Except String (Header × List String)
  | [] => .error ("multipart: truncated headers")
  | l :: t =>
    if l = "" then .ok ([], t)
    else
      match splitN l (':') 2 with
      | [k, v] =>
        (parsePartHeader t).map (fun p => ((k, trimS v) :: p.fst, p.snd))
      | _ => .error ("multipart: malformed header line")

/-- Collect a part's body lines up to the next boundary line; the Bool says
whether another part follows.  EOF before a boundary is a read error, as in
Go's multipart.Reader. -/
def collectBody (boundary : String) : List String → Except String (List String × Bool × List String)
  | [] => .error ("multipart: unexpected EOF")
  | l :: t =>
    if l = "--" ++ boundary ++ "--" then .ok ([], false, t)
    else if l = "--" ++ boundary then .ok ([], true, t)
    else (collectBody boundary t).map (fun r => (l :: r.fst, r.snd.fst, r.snd.snd))

/-- Skip the preamble up to the first opening boundary line; none when the
stream ends (or closes) before one, in which case there are no parts. -/
def skipPreamble (boundary : String) : List String → Option (List String)
  | [] => none
  | l :: t =>
    if l = "--" ++ boundary ++ "--" then none
    else if l = "--" ++ boundary then some t
    else skipPreamble boundary t

/-- The sequence of parts after the first opening boundary. -/
def partsLoop (boundary : String) : Nat → List String → Except String (List (Header × String))
  | 0, _ => .error ("multipart: part limit")
  | fuel + 1, lines =>
    match parsePartHeader lines with
    | .error e => .error e
    | .ok (h, rest) =>
      match collectBody boundary rest with
      | .error e => .error e
      | .ok (body, more, rest2) =>
        let part := (h, joinWith ("\n") body)
        if more then (partsLoop boundary fuel rest2).map (fun ps => part :: ps)
        else .ok [part]

/-- Model of Go's mime/multipart.Reader: the raw (header, body) pairs of the
parts delimited by the boundary.  A missing opening boundary yields no parts
(NextPart returns EOF at once). -/
def multipartSplit (boundary : String) (content : String) : Except String (List (Header × String)) :=
  let lines := toLines content
  match skipPreamble boundary lines with
  | none => .ok []
  | some rest => partsLoop boundary (lines.length + 1) rest

/-- params["boundary"] with Go's zero-value default. -/
def getParam (params : List (String × String)) (key : String) : String :=
  ((params.find? (fun kv => kv.fst = key)).map (fun kv => kv.snd)).getD ""

mutual

/-- parseContent (message.go): recursive decomposition of a body into parts.
"mime: no media type" falls back to application/octet-stream (a non-multipart
type, hence the leaf branch); any other media-type error is fatal.  The fuel
argument bounds the recursion, which Go bounds by the strictly shrinking
content; callers pass more fuel than the content has bytes, which one
nesting step or one processed part each consume one of. -/
def parseContentF : Nat → Header → String → Except String (List (Option Part))
  | 0, _, _ => .error ("MIME error: nesting limit")
  | fuel + 1, header, content =>
    match parseMediaType (getHeader header ("Content-Type")) with
    | .error e =>
      if e = "mime: no media type" then
        match readToPart header content with
        | .error e2 => .error e2
        | .ok part => .ok [some part]
      else .error ("Media Type error: " ++ e)
    | .ok (mediaType, params) =>
      if startsWithS mediaType ("multipart/") then
        match multipartSplit (getParam params ("boundary")) content with
        | .error e => .error ("MIME error: " ++ e)
        | .ok raws => subParts fuel raws
      else
        match readToPart header content with
        | .error e2 => .error e2
        | .ok part => .ok [some part]
termination_by structural fuel _ _ => fuel

/-- The loop body of parseContent over the parts of a multipart region.
Mirrors the source faithfully, including its error shadowing: the error of
readToPart is discarded (`part, err := readToPart(...)` is overwritten by the
following `partType, _, err := mime.ParseMediaType(...)`), so a failed
transfer-decode leaves a nil *Part (none) in the list; dereferencing it for a
nested multipart would panic. -/
def subParts : Nat → List (Header × String) → Except String (List (Option Part))
  | _, [] => .ok []
  | 0, _ :: _ => .error ("MIME error: nesting limit")
  | fuel + 1, (ph, pbody) :: rest =>
    let partO : Option Part := (readToPart ph pbody).toOption
    match parseMediaType (getHeader ph ("Content-Type")) with
    | .error e => .error e
    | .ok (partType, _) =>
      if startsWithS partType ("multipart/") then
        match partO with
        | none => .error goNilPanic
        | some part =>
          match parseContentF fuel ph part.Body with
          | .error e => .error e
          | .ok sub =>
            (subParts fuel rest).map (fun ps => some { part with Children := sub } :: ps)
      else (subParts fuel rest).map (fun ps => partO :: ps)
termination_by structural fuel _ => fuel

end

/-- The parsed view of one received DATA payload (message.go Message).  The
sync.Once pair (messageID, genMessageID) models the memoised identifier. -/
structure Message where
  To : List Address
  From : Address
  Header : Header
  Subject : String
  RawBody : String
  messageID : String
  genMessageID : Bool
  rcpt : List Address
deriving DecidableEq, Repr

/-- Message.ID: returns the Message-ID header when one is set, else a random
token, generated at most once (sync.Once) and memoised.  The gen argument is
the token the masked-string generator would produce on this call; the updated
Message carries the memoised state. -/
def ID (gen : String) (m : Message) : String × Message :=
  if m.genMessageID then (m.messageID, m)
  else
    let hdr := getHeader m.Header ("Message-ID")
    let v := if hdr ≠ "" then hdr else gen
    (v, { m with messageID := v, genMessageID := true })

/-- Message.BCC: the envelope recipients whose address string is not among
the To-header addresses. -/
def BCC (m : Message) : List Address :=
  let inHeaders := m.To.map (fun t => t.Address)
  m.rcpt.filter (fun r => !(inHeaders.contains r.Address))

/-- Message.Parts: parse the MIME tree on demand from the stored raw body. -/
def Parts (m : Message) : Except String (List (Option Part)) :=
  parseContentF (m.RawBody.length + 2) m.Header m.RawBody

/-- findTypeInParts (message.go): first part whose Content-Type parses to the
wanted media type; parts whose Content-Type does not parse are skipped.  A
nil entry is dereferenced (p.Header.Get), hence the panic. -/
def findTypeInParts (contentType : String) : List (Option Part) → Except String (Option Part)
  | [] => .ok none
  | none :: _ => .error goNilPanic
  | some p :: t =>
    match parseMediaType (getHeader p.Header ("Content-Type")) with
    | .ok (mt, _) => if mt = contentType then .ok (some p) else findTypeInParts contentType t
    | .error _ => findTypeInParts contentType t

/-- Message.FindBody (message.go): the search order over the top-level media
type, a top-level multipart/alternative, or a multipart/alternative child. -/
def FindBody (m : Message) (contentType : String) : Except String String :=
  match parseMediaType (getHeader m.Header ("Content-Type")) with
  | .error e => .error e
  | .ok (mediaType, _) =>
  match Parts m with
  | .error e => .error e
  | .ok parts =>
  if mediaType = contentType then
    match parts with
    | some p :: _ => .ok p.Body
    | none :: _ => .error goNilPanic
    | [] => .error (contentType ++ " found, but no data in body")
  else
    let altE : Except String (List (Option Part)) :=
      if mediaType = "multipart/alternative" then .ok parts
      else
        match findTypeInParts ("multipart/alternative") parts with
        | .error e => .error e
        | .ok (some alt) => .ok alt.Children
        | .ok none => .ok []
    match altE with
    | .error e => .error e
    | .ok alternatives =>
      if alternatives.isEmpty then
        .error ("No multipart/alternative section found, can\x27t find " ++ contentType)
      else
        match findTypeInParts contentType alternatives with
        | .error e => .error e
        | .ok (some part) => .ok part.Body
        | .ok none => .error ("No " ++ contentType ++ " content found in multipart/alternative section")

/-- Message.Plain. -/
def Plain (m : Message) : Except String String := FindBody m ("text/plain")

/-- Message.HTML. -/
def HTML (m : Message) : Except String String := FindBody m ("text/html")

/-- Worker for mergeCont carrying the header line being assembled. -/
def mergeContGo (cur : String) : List String → List String
  | [] => [cur]
  | l :: t =>
    if startsWithS l (" ") || startsWithS l ("\t") then mergeContGo (cur ++ " " ++ trimS l) t
    else cur :: mergeContGo l t

/-- Merge RFC 5322 continuation lines (a line starting with space or tab
continues the previous header line), as Go's textproto reader does. -/
def mergeCont : List String → List String
  | [] => []
  | l :: t => mergeContGo l t

/-- One header line: Key: Value, the key free of blanks, the value trimmed. -/
def parseHeaderLine (l : String) : Except String (String × String) :=
  match splitN l (':') 2 with
  | [k, v] =>
    if k = "" || k.toList.any (fun c => c = ' ' || c = '\t') then
      .error ("malformed MIME header line")
    else .ok (k, trimS v)
  | _ => .error ("malformed MIME header line")

/-- Parse a header block (model of textproto.ReadMIMEHeader on the lines
before the blank line). -/
def parseHeaderLines (ls : List String) : Except String Header :=
  (mergeCont (ls.map stripCR)).mapM parseHeaderLine

/-- The lines before the first blank line and those after it; none without a
blank line. -/
def breakAtBlank : List String → Option (List String × List String)
  | [] => none
  | l :: t =>
    if l = "" then some ([], t)
    else (breakAtBlank t).map (fun p => (l :: p.fst, p.snd))

/-- Model of Go's mail.ReadMessage: split the input at the first blank line
into a parsed header block and the raw remainder.  The repository always
feeds newline-joined data (Conn.ReadData joins the dot-lines with a bare
newline), so the blank line is a double newline; input without one is an
error, as ReadMIMEHeader hits EOF. -/
def readMessage (data : String) : Except String (Header × String) :=
  match breakAtBlank (splitChar ('\n') data) with
  | none => .error ("mail: EOF before blank line")
  | some (hls, bls) =>
    (parseHeaderLines hls).map (fun h => (h, joinWith ("\n") bls))

/-- An addr-spec: local@domain, both sides nonempty and free of blanks.
Simplified model of Go's RFC 5322 address parser. -/
def validAddrSpec (a : String) : Bool :=
  match splitChar ('@') a with
  | [l, d] => l ≠ "" && d ≠ "" && a.toList.all (fun c => c ≠ ' ' && c ≠ '\t')
  | _ => false

/-- Strip one level of surrounding double quotes from a display name. -/
def stripQuotes (n : String) : String :=
  if startsWithS n ("\"") && endsWithS n ("\"") && 2 ≤ n.length then dropRightS (dropS n 1) 1 else n

/-- One mailbox: either a bare addr-spec or a display name before an
angle-bracketed addr-spec. -/
def parseOneAddress (s : String) : Except String Address :=
  let s := trimS s
  match splitChar ('<') s with
  | [bare] =>
    if validAddrSpec bare then .ok { Name := "", Address := bare }
    else .error ("mail: invalid address")
  | [name, rest] =>
    if endsWithS rest (">") then
      let addr := dropRightS rest 1
      if validAddrSpec addr then .ok { Name := stripQuotes (trimS name), Address := addr }
      else .error ("mail: invalid address")
    else .error ("mail: unclosed angle-addr")
  | _ => .error ("mail: invalid address")

/-- Model of mail.ParseAddressList: comma-separated mailboxes (display names
with embedded commas are outside this model); an empty list is an error. -/
def parseAddressList (v : String) : Except String (List Address) :=
  if trimS v = "" then .error ("mail: no address")
  else (splitChar (',') v).mapM parseOneAddress

/-- Model of mail.Header.AddressList: an absent header is
mail.ErrHeaderNotPresent, else its value is parsed as an address list. -/
def addressList (h : Header) (key : String) : Except String (List Address) :=
  let v := getHeader h key
  if v = "" then .error ("mail: header not in message")
  else parseAddressList v

/-- NewMessage (message.go): read the envelope, require parseable To and From
address lists, slurp the remaining raw body unparsed, and package the
Message.  From takes the first address of the From list. -/
def NewMessage (data : String) (rcpt : List Address) : Except String Message :=
  match readMessage data with
  | .error e => .error e
  | .ok (header, body) =>
  match addressList header ("To") with
  | .error e => .error e
  | .ok tos =>
  match addressList header ("From") with
  | .error e => .error e
  | .ok froms =>
  match froms with
  | [] => .error ("mail: no address")
  | f :: _ =>
    .ok { To := tos, From := f, Header := header, Subject := getHeader header ("subject"),
          RawBody := body, messageID := "", genMessageID := false, rcpt := rcpt }

/-- A Go error value as the repository's server sees one: an SMTPError value
(errors.go declares the well-known errors as values), a pointer *SMTPError
(auth.go builds one for an unknown mechanism), or any other error carrying
only its message.  The distinction matters because smtp.go recovers the code
with type assertions: err.(SMTPError) in the DATA case, err.(*SMTPError) in
the AUTH case. -/
inductive GoErr
  | smtpVal (code : Nat) (msg : String)
  | smtpPtr (code : Nat) (msg : String)
  | plain (msg : String)
deriving DecidableEq, Repr

/-- SMTPError.Error(): the message of the wrapped error. -/
def errText : GoErr → String
  | .smtpVal _ m => m
  | .smtpPtr _ m => m
  | .plain m => m

/-- errors.go: ErrAuthFailed. -/
def ErrAuthFailed : GoErr := .smtpVal 535 ("Authentication credentials invalid")

/-- errors.go: ErrAuthCancelled. -/
def ErrAuthCancelled : GoErr := .smtpVal 501 ("Cancelled")

/-- errors.go: ErrRequiresTLS. -/
def ErrRequiresTLS : GoErr := .smtpVal 538 ("Encryption required for requested authentication mechanism")

/-- errors.go: ErrTransaction. -/
def ErrTransaction : GoErr := .smtpVal 501 ("Transaction unsuccessful")

/-- The AuthUser interface: a principal with an identity check and a stored
password (the password only feeds CRAM-MD5, which no claim exercises). -/
structure AuthUser where
  IsUser : String → Bool
  Password : String

/-- One line written to the client: a reply "<code> <text>" (WriteSMTP) or an
EHLO continuation "250-<text>" (WriteEHLO). -/
inductive OutLine
  | reply (code : Nat) (text : String)
  | cont (text : String)
deriving DecidableEq, Repr

/-- Render an output line to its wire form without the trailing CRLF. -/
def renderLine : OutLine → String
  | .reply code text => toString code ++ " " ++ text
  | .cont text => "250-" ++ text

/-- The per-connection state (conn.go Conn).  The byte stream is modelled by
an input list of pending client lines and an output list of written lines. -/
structure Conn where
  LocalAddr : String
  IsTLS : Bool
  Errors : List String
  User : Option AuthUser
  FromAddr : Option Address
  ToAddr : List Address
  transaction : Nat
  input : List String
  output : List OutLine

/-- Conn.WriteSMTP. -/
def WriteSMTP (c : Conn) (code : Nat) (message : String) : Conn :=
  { c with output := c.output ++ [.reply code message] }

/-- Conn.WriteEHLO. -/
def WriteEHLO (c : Conn) (message : String) : Conn :=
  { c with output := c.output ++ [.cont message] }

/-- Conn.WriteOK. -/
def WriteOK (c : Conn) : Conn := WriteSMTP c 250 ("OK")

/-- Conn.ReadLine: the next pending client line; an exhausted stream is an
I/O error. -/
def ReadLine (c : Conn) : Conn × Except GoErr String :=
  match c.input with
  | [] => (c, .error (.plain ("EOF")))
  | l :: t => ({ c with input := t }, .ok l)

/-- Conn.ReadData: the dot-terminated DATA payload, already dot-unstuffed and
newline-joined; the model stores it as one pending input entry. -/
def ReadData (c : Conn) : Conn × Except GoErr String := ReadLine c

/-- Conn.StartTX: refuse when a transaction is already open, else stamp the
transaction with the current clock (Go uses time.Now().UnixNano(), passed in
here as now) and record the reverse-path. -/
def StartTX (c : Conn) (now : Nat) (f : Address) : Conn × Option GoErr :=
  if c.transaction ≠ 0 then (c, some ErrTransaction)
  else ({ c with transaction := now, FromAddr := some f }, none)

/-- Conn.EndTX. -/
def EndTX (c : Conn) : Conn × Option GoErr :=
  if c.transaction = 0 then (c, some ErrTransaction)
  else ({ c with transaction := 0 }, none)

/-- Conn.Reset: clears the user, the reverse-path, the recipients and the
open transaction. -/
def Reset (c : Conn) : Conn :=
  { c with User := none, FromAddr := none, ToAddr := [], transaction := 0 }

/-- AuthPlain.unpack: base64-decode, split on NUL into three fields, keep the
authcid and password. -/
def unpack (line : String) : Except GoErr (String × String) :=
  match b64Decode line with
  | .error e => .error (.plain e)
  | .ok rawCreds =>
    match splitN rawCreds (Char.ofNat 0) 3 with
    | [_, u, p] => .ok (u, p)
    | _ => .error (.plain ("Malformed auth string"))

/-- The AuthExtension interface: Handle(conn, params) returning a principal
or an error, possibly conversing on the connection. -/
abbrev AuthExtension := Conn → String → Conn × Except GoErr AuthUser

/-- AuthPlain.Handle (auth.go): refuse without TLS (ErrRequiresTLS), then
either run the sub-dialogue (334 continuation and one line) or use the
initial response; a failed credential check is ErrAuthFailed, as is a
malformed initial response. -/
def authPlainHandle (auth : String → String → Option AuthUser) (conn : Conn) (params : String) :
    Conn × Except GoErr AuthUser :=
  if !conn.IsTLS then (conn, .error ErrRequiresTLS)
  else if trimS params = "" then
    let conn := WriteSMTP conn 334 ("")
    match ReadLine conn with
    | (conn2, .error e) => (conn2, .error e)
    | (conn2, .ok line) =>
      match unpack line with
      | .error e => (conn2, .error e)
      | .ok up =>
        match auth up.fst up.snd with
        | some user => (conn2, .ok user)
        | none => (conn2, .error ErrAuthFailed)
  else
    match unpack params with
    | .ok up =>
      match auth up.fst up.snd with
      | some user => (conn, .ok user)
      | none => (conn, .error ErrAuthFailed)
    | .error _ => (conn, .error ErrAuthFailed)

/-- Auth.Handle (auth.go): split off the mechanism name, look it up after
upper-casing, hand the rest to the mechanism and set conn.User on success; an
unknown mechanism is a *SMTPError with code 500. -/
def authHandle (mechanisms : List (String × AuthExtension)) (c : Conn) (args : String) :
    Conn × Option GoErr :=
  let mech := splitN args (' ') 2
  match mechanisms.find? (fun kv => kv.fst = upper (mech.headD (""))) with
  | some kv =>
    let args2 := if mech.length = 2 then mech.getD 1 ("") else ""
    match kv.snd c args2 with
    | (c2, .ok user) => ({ c2 with User := some user }, none)
    | (c2, .error e) => (c2, some e)
  | none => (c, some (.smtpPtr 500 ("AUTH mechanism " ++ mech.headD ("") ++ " not available")))

/-- Auth.EHLO: the mechanism names joined by blanks (Go ranges over a map;
the model keeps the registration order). -/
def authEHLOList (mechanisms : List (String × AuthExtension)) : String :=
  joinWith (" ") (mechanisms.map (fun kv => kv.fst))

/-- A server extension: a verb handler and its EHLO capability token. -/
structure Extension where
  handle : Conn → String → Conn × Option GoErr
  ehlo : String

/-- The server configuration (smtp.go Server).  TLSConfig is whether one is
set; tlsHandshakeOk is the outcome the TLS handshake would have on this
connection; genID is the token the random message-id generator would
produce; handler is the application MessageHandler. -/
structure Server where
  Name : String
  ServerName : String
  MaxSize : Nat
  TLSConfig : Bool
  tlsHandshakeOk : Bool
  Auth : Option (List (String × AuthExtension))
  Extensions : List (String × Extension)
  Disabled : List String
  Help : String
  handler : Message → Option GoErr
  genID : String

/-- Server.Greeting. -/
def Greeting (conn : Conn) : String := "Welcome! [" ++ conn.LocalAddr ++ "]"

/-- Try the path pattern of smtp.go's pathRegex at this exact position:
an angle bracket, one or more bytes other than at-sign and closing bracket,
an at-sign, one or more such bytes again, a closing bracket. -/
def pathAt : List Char → Option String
  | '<' :: rest =>
    let l1 := rest.takeWhile (fun c => c ≠ '@' && c ≠ '>')
    (match rest.drop l1.length with
     | '@' :: rest2 =>
       let l2 := rest2.takeWhile (fun c => c ≠ '@' && c ≠ '>')
       (match rest2.drop l2.length with
        | '>' :: _ =>
          if l1 ≠ [] && l2 ≠ [] then some (String.mk ('<' :: l1 ++ '@' :: l2 ++ ['>']))
          else none
        | _ => none)
     | _ => none)
  | _ => none

/-- pathRegex.FindString: the leftmost match of the path pattern. -/
def findPath : List Char → Option String
  | [] => none
  | c :: t =>
    match pathAt (c :: t) with
    | some s => some s
    | none => findPath t

/-- How fmt prints a *mail.Address with the %v verb. -/
def showGoAddress (a : Address) : String := "&\x7b" ++ a.Name ++ " " ++ a.Address ++ "\x7d"

/-- Server.GetAddressArg (smtp.go): split the argument at the first colon,
require the left side to equal the argument name after upper-casing, scan the
right side for the first angle-bracketed path and parse it as an address. -/
def GetAddressArg (argName args : String) : Except String Address :=
  match splitN args (':') 2 with
  | [a0, a1] =>
    if upper a0 = argName then
      match findPath a1.toList with
      | none => .error ("couldnt find valid FROM path in " ++ a1)
      | some path => parseOneAddress path
    else .error ("Bad arguments")
  | _ => .error ("Bad arguments")

/-- What the session loop does after a command: read the next command or
leave the loop. -/
inductive Ctl
  | readNext
  | brk
deriving DecidableEq, Repr

/-- The verbs an unauthenticated session may use on an auth-enabled server. -/
def isAllowListed (verb : String) : Bool :=
  verb = "AUTH" || verb = "EHLO" || verb = "HELO" || verb = "NOOP" ||
  verb = "RSET" || verb = "QUIT" || verb = "STARTTLS"

/-- One iteration of Server.HandleSMTP (smtp.go) after the command line has
been read and split: the disabled check, the auth gate, extension dispatch,
then the built-in verb dispatch.  now is the clock value StartTX would
stamp. -/
def handleCommand (srv : Server) (now : Nat) (conn : Conn) (verb args : String) : Conn × Ctl :=
  if srv.Disabled.contains verb then
    if verb = "EHLO" then (WriteSMTP conn 550 ("Not implemented"), .readNext)
    else (WriteSMTP conn 502 ("Command not implemented"), .readNext)
  else if srv.Auth.isSome && conn.User.isNone && verb = "*" then
    (WriteSMTP conn 501 ("Cancelled"), .readNext)
  else if srv.Auth.isSome && conn.User.isNone && !isAllowListed verb then
    (WriteSMTP conn 530 ("Authentication required"), .readNext)
  else
    match srv.Extensions.find? (fun kv => kv.fst = verb) with
    | some kv => ((kv.snd.handle conn args).fst, .readNext)
    | none =>
      if verb = "HELO" then (WriteSMTP conn 250 (srv.ServerName ++ " Hello"), .readNext)
      else if verb = "EHLO" then
        let conn := Reset conn
        let conn := WriteEHLO conn (srv.ServerName ++ " " ++ Greeting conn)
        let conn := WriteEHLO conn ("SIZE " ++ toString srv.MaxSize)
        let conn := if !conn.IsTLS && srv.TLSConfig then WriteEHLO conn ("STARTTLS") else conn
        let conn :=
          if conn.User.isNone && srv.Auth.isSome then
            WriteEHLO conn ("AUTH " ++ authEHLOList (srv.Auth.getD []))
          else conn
        let conn := srv.Extensions.foldl (fun c kv => WriteEHLO c (kv.fst ++ " " ++ kv.snd.ehlo)) conn
        (WriteSMTP conn 250 ("HELP"), .readNext)
      else if verb = "MAIL" then
        match GetAddressArg ("FROM") args with
        | .ok fromA =>
          if (match conn.User with | none => true | some u => u.IsUser fromA.Address) then
            match StartTX conn now fromA with
            | (conn2, none) => (WriteSMTP conn2 250 ("Accepted"), .readNext)
            | (conn2, some e) => (WriteSMTP conn2 501 (errText e), .readNext)
          else (WriteSMTP conn 501 ("Cannot send mail as " ++ showGoAddress fromA), .readNext)
        | .error e => (WriteSMTP conn 501 e, .readNext)
      else if verb = "RCPT" then
        match GetAddressArg ("TO") args with
        | .ok toA => (WriteSMTP { conn with ToAddr := conn.ToAddr ++ [toA] } 250 ("Accepted"), .readNext)
        | .error e => (WriteSMTP conn 501 e, .readNext)
      else if verb = "DATA" then
        let conn := WriteSMTP conn 354 ("Enter message, ending with \".\" on a line by itself")
        match ReadData conn with
        | (conn2, .error _) => (conn2, .readNext)
        | (conn2, .ok data) =>
          match NewMessage data conn2.ToAddr with
          | .ok message =>
            match EndTX conn2 with
            | (conn3, none) =>
              match srv.handler message with
              | none => (WriteSMTP conn3 250 ("OK : queued as " ++ (ID srv.genID message).fst), .readNext)
              | some e =>
                match e with
                | .smtpVal code m => (WriteSMTP conn3 code m, .readNext)
                | _ => (WriteSMTP conn3 554 ("Error: I blame me. " ++ errText e), .readNext)
            | (conn3, some _) => (WriteSMTP conn3 554 ("Error: I blame you. <nil>"), .readNext)
          | .error e => (WriteSMTP conn2 554 ("Error: I blame you. " ++ e), .readNext)
      else if verb = "RSET" then (WriteOK (Reset conn), .readNext)
      else if verb = "VRFY" then (WriteSMTP conn 252 ("But it was worth a shot, right?"), .readNext)
      else if verb = "EXPN" then (WriteSMTP conn 252 ("Maybe, maybe not"), .readNext)
      else if verb = "HELP" then
        let msg :=
          if srv.Help ≠ "" then srv.Help
          else "contact the owner of " ++ srv.ServerName ++ " for more information"
        (WriteSMTP conn 214 msg, .readNext)
      else if verb = "NOOP" then (WriteOK conn, .readNext)
      else if verb = "QUIT" then (WriteSMTP conn 221 ("Bye"), .brk)
      else if verb = "STARTTLS" then
        let conn := WriteSMTP conn 220 ("Ready to start TLS")
        if srv.TLSConfig && srv.tlsHandshakeOk then
          ({ LocalAddr := conn.LocalAddr, IsTLS := true, Errors := conn.Errors, User := conn.User,
             FromAddr := none, ToAddr := [], transaction := 0,
             input := conn.input, output := conn.output }, .readNext)
        else (conn, .brk)
      else if verb = "AUTH" then
        if conn.User.isSome then (WriteSMTP conn 503 ("You are already authenticated"), .readNext)
        else
          match srv.Auth with
          | some mechanisms =>
            (match authHandle mechanisms conn args with
             | (conn2, some e) =>
               (match e with
                | .smtpPtr code m => (WriteSMTP conn2 code m, .readNext)
                | _ => (WriteSMTP conn2 500 ("Authentication failed"), .readNext))
             | (conn2, none) => (WriteSMTP conn2 235 ("Authentication succeeded"), .readNext))
          | none => (WriteSMTP conn 502 ("Command not implemented"), .readNext)
      else
        let conn := WriteSMTP conn 500 ("Syntax error, command unrecognised")
        let conn := { conn with Errors := conn.Errors ++ ["bad input: " ++ verb ++ " " ++ args] }
        if 3 < conn.Errors.length then (WriteSMTP conn 500 ("Too many unrecognized commands"), .brk)
        else (conn, .readNext)

/-! ## Concrete fixtures -/

/-- A plain text/html email whose body is corrupt quoted-printable (the S8
scenario, reduced). -/
def s8mail : String := "From: a@b.com\nTo: c@d.com\nContent-Type: text/html\nContent-Transfer-Encoding: quoted-printable\n\nbees =FG"

/-- The header block readMessage extracts from s8mail. -/
def s8hdr : Header :=
  [("From", "a@b.com"), ("To", "c@d.com"), ("Content-Type", "text/html"),
   ("Content-Transfer-Encoding", "quoted-printable")]

/-- The header of a multipart message with one corrupt quoted-printable
sub-part. -/
def c5hdr : Header := [("Content-Type", "multipart/alternative; boundary=b")]

/-- The corrupt multipart body: one text/plain part whose quoted-printable
content "=FG" cannot decode. -/
def c5body : String := "--b\nContent-Type: text/plain\nContent-Transfer-Encoding: quoted-printable\n\n=FG\n--b--\n"

/-- A message carrying in-header recipient r1 and envelope recipients r1 and
bcc (the S4 scenario). -/
def bccMsg : Message :=
  { To := [{ Name := "", Address := "r1@example.net" }],
    From := { Name := "", Address := "s@example.org" }, Header := [], Subject := "",
    RawBody := "", messageID := "", genMessageID := false,
    rcpt := [{ Name := "", Address := "r1@example.net" },
             { Name := "", Address := "bcc@example.net" }] }

/-- A message whose Message-ID header is set. -/
def idMsg : Message :=
  { To := [], From := { Name := "", Address := "a@b" },
    Header := [("Message-ID", "<examplemessage@example.com>")], Subject := "",
    RawBody := "", messageID := "", genMessageID := false, rcpt := [] }

/-! ## Claim theorems: the message layer -/

/-- C7: Message.BCC is the set difference rcpt minus to keyed by exact
mailbox-address string equality; hence every BCC entry is an envelope
recipient and no BCC address occurs among the To-header addresses. -/
theorem bcc_set_difference (m : Message) :
    (∀ a, a ∈ BCC m ↔ (a ∈ m.rcpt ∧ ∀ t ∈ m.To, a.Address ≠ t.Address)) ∧
    (∀ a ∈ BCC m, a ∈ m.rcpt) ∧
    (∀ a ∈ BCC m, ∀ t ∈ m.To, a.Address ≠ t.Address) := by
  have key : ∀ a, a ∈ BCC m ↔ (a ∈ m.rcpt ∧ ∀ t ∈ m.To, a.Address ≠ t.Address) := by
    intro a
    simp [BCC, List.mem_filter]
    intro _
    constructor
    · intro h t ht he
      exact h t ht he.symm
    · intro h t ht he
      exact h t ht he.symm
  refine ⟨key, ?_, ?_⟩
  · intro a ha
    exact ((key a).mp ha).1
  · intro a ha
    exact ((key a).mp ha).2

/-- C7 witness: on the S4 message, the bcc recipient is an envelope recipient
whose address differs from every To-header address. -/
theorem bcc_set_difference_witness :
    ({ Name := "", Address := "bcc@example.net" } : Address) ∈ bccMsg.rcpt ∧
    ∀ t ∈ bccMsg.To, ({ Name := "", Address := "bcc@example.net" } : Address).Address ≠ t.Address :=
  ((bcc_set_difference bccMsg).1 { Name := "", Address := "bcc@example.net" }).mp (by decide)

/-- C8: Message.ID is memoised — a second call returns the first call's value
whatever token the generator would produce — and on a fresh Message with a
nonempty Message-ID header it returns that header's value. -/
theorem id_memoised (gen gen2 : String) (m : Message) :
    ((ID gen2 (ID gen m).snd).fst = (ID gen m).fst) ∧
    (m.genMessageID = false → getHeader m.Header ("Message-ID") ≠ ("") →
      (ID gen m).fst = getHeader m.Header ("Message-ID")) := by
  constructor
  · by_cases h : m.genMessageID <;> simp [ID, h]
  · intro h1 h2
    simp [ID, h1, h2]

/-- C8 witness: the message with Message-ID header returns the header value,
and a repeated call with a different generator token returns the same
value. -/
theorem id_memoised_witness :
    (ID ("t1") idMsg).fst = getHeader idMsg.Header ("Message-ID") ∧
    getHeader idMsg.Header ("Message-ID") = ("<examplemessage@example.com>") ∧
    (ID ("t2") (ID ("t1") idMsg).snd).fst = (ID ("t1") idMsg).fst :=
  ⟨(id_memoised ("t1") ("t2") idMsg).2 rfl (by decide), rfl, (id_memoised ("t1") ("t2") idMsg).1⟩

/-- C5 (the failing input): the transfer-decode of the corrupt sub-part fails
in readToPart, yet parseContent returns success on the surrounding multipart,
with a nil part in place of the failed one — the decode error was discarded
by the shadowed err in parseContent, not propagated as a parse failure. -/
theorem parseContent_drops_decode_error :
    readToPart ([("Content-Type", "text/plain"), ("Content-Transfer-Encoding", "quoted-printable")]) ("=FG")
        = .error ("quotedprintable: invalid hex byte") ∧
    parseContentF (c5body.length + 2) c5hdr c5body = .ok [none] := by
  constructor
  · rfl
  · rfl

/-- C4: whenever the header block parses, with parseable To and From address
lists, NewMessage succeeds and stores the raw body unmodified, whatever the
body holds; on the S8 input with a corrupt quoted-printable body NewMessage
succeeds while Parts fails — the MIME parse error surfaces only there. -/
theorem newMessage_defers_mime_parse
    (data : String) (rcpt : List Address) (hdr : Header) (body : String)
    (tos : List Address) (f : Address) (fs : List Address)
    (hread : readMessage data = .ok (hdr, body))
    (hto : addressList hdr ("To") = .ok tos)
    (hfrom : addressList hdr ("From") = .ok (f :: fs)) :
    (NewMessage data rcpt = .ok
      { To := tos, From := f, Header := hdr, Subject := getHeader hdr ("subject"),
        RawBody := body, messageID := "", genMessageID := false, rcpt := rcpt }) ∧
    ((NewMessage s8mail []).map (fun m => m.RawBody) = .ok ("bees =FG")) ∧
    ((NewMessage s8mail []).bind Parts).isOk = false := by
  refine ⟨?_, rfl, rfl⟩
  simp [NewMessage, hread, hto, hfrom]

/-- C4 witness: the general statement applied to the S8 input. -/
theorem newMessage_defers_mime_parse_witness :
    NewMessage s8mail [] = .ok
      { To := [{ Name := "", Address := "c@d.com" }],
        From := { Name := "", Address := "a@b.com" }, Header := s8hdr, Subject := "",
        RawBody := ("bees =FG"), messageID := "", genMessageID := false, rcpt := [] } :=
  (newMessage_defers_mime_parse s8mail [] s8hdr ("bees =FG")
    [{ Name := "", Address := "c@d.com" }] { Name := "", Address := "a@b.com" } []
    (by rfl) (by rfl) (by rfl)).1

/-- C10: when the header block parses but the To or the From address list
does not, NewMessage fails — before the body is ever MIME-parsed. -/
theorem newMessage_requires_to_from
    (data : String) (rcpt : List Address) (hdr : Header) (body : String)
    (hread : readMessage data = .ok (hdr, body))
    (hbad : (addressList hdr ("To")).isOk = false ∨ (addressList hdr ("From")).isOk = false) :
    (NewMessage data rcpt).isOk = false := by
  unfold NewMessage
  rw [hread]
  rcases hbad with h | h
  · cases hT : addressList hdr ("To") with
    | error e => simp only [hT]; rfl
    | ok tos => rw [hT] at h; simp [Except.isOk, Except.toBool] at h
  · cases hT : addressList hdr ("To") with
    | error e => simp only [hT]; rfl
    | ok tos =>
      cases hF : addressList hdr ("From") with
      | error e => simp only [hT, hF]; rfl
      | ok froms => rw [hF] at h; simp [Except.isOk, Except.toBool] at h

/-- C10 witness: a message without a To header is rejected. -/
theorem newMessage_requires_to_from_witness :
    (NewMessage ("From: a@b.com\n\nhello") []).isOk = false :=
  newMessage_requires_to_from ("From: a@b.com\n\nhello") [] ([("From", "a@b.com")]) ("hello")
    (by rfl) (Or.inl (by rfl))

/-! ## Helper lemmas on the session layer -/

/-- Folding WriteEHLO over the extension list appends one continuation line
per extension and changes nothing else. -/
theorem foldl_writeEHLO (l : List (String × Extension)) (c : Conn) :
    l.foldl (fun c kv => WriteEHLO c (kv.fst ++ " " ++ kv.snd.ehlo)) c =
    { c with output := c.output ++ l.map (fun kv => OutLine.cont (kv.fst ++ " " ++ kv.snd.ehlo)) } := by
  induction l generalizing c with
  | nil => simp
  | cons kv t ih =>
    rw [List.foldl_cons, ih]
    simp [WriteEHLO]

/-- Every built-in verb other than AUTH either leaves the session's user
unchanged or clears it; only AUTH can set it. -/
theorem user_frame
    (srv : Server) (now : Nat) (conn : Conn) (verb args2 : String)
    (hv : verb ≠ "AUTH")
    (hextV : srv.Extensions.find? (fun kv => kv.fst = verb) = none) :
    ((handleCommand srv now conn verb args2).fst.User = conn.User ∨
     (handleCommand srv now conn verb args2).fst.User = none) := by
  unfold handleCommand
  by_cases hd : srv.Disabled.contains verb = true
  · rw [if_pos hd]
    by_cases he : verb = "EHLO"
    · rw [if_pos he]
      exact Or.inl rfl
    · rw [if_neg he]
      exact Or.inl rfl
  rw [if_neg hd]
  by_cases hg1 : (srv.Auth.isSome && conn.User.isNone && decide (verb = "*")) = true
  · rw [if_pos hg1]
    exact Or.inl rfl
  rw [if_neg hg1]
  by_cases hg2 : (srv.Auth.isSome && conn.User.isNone && !isAllowListed verb) = true
  · rw [if_pos hg2]
    exact Or.inl rfl
  rw [if_neg hg2]
  rw [hextV]
  by_cases h1 : verb = "HELO"
  · subst h1
    exact Or.inl rfl
  by_cases h2 : verb = "EHLO"
  · subst h2
    refine Or.inr ?_
    simp only [foldl_writeEHLO]
    simp only [WriteEHLO, WriteSMTP, Reset, String.reduceEq, reduceIte]
    split <;> split <;> rfl
  by_cases h3 : verb = "MAIL"
  · subst h3
    refine Or.inl ?_
    simp only [String.reduceEq, reduceIte]
    cases hga : GetAddressArg ("FROM") args2 with
    | error e => rfl
    | ok fromA =>
      dsimp only
      cases hu : conn.User with
      | none =>
        dsimp only
        unfold StartTX
        by_cases htx : conn.transaction ≠ 0
        · rw [if_pos htx]
          exact hu
        · rw [if_neg htx]
          exact hu
      | some u =>
        dsimp only
        by_cases hiu : u.IsUser fromA.Address = true
        · simp only [hiu, reduceIte]
          unfold StartTX
          by_cases htx : conn.transaction ≠ 0
          · rw [if_pos htx]
            exact hu
          · rw [if_neg htx]
            exact hu
        · simp only [Bool.not_eq_true] at hiu
          simp only [hiu, reduceIte]
          exact hu
  by_cases h4 : verb = "RCPT"
  · subst h4
    refine Or.inl ?_
    simp only [String.reduceEq, reduceIte]
    cases hga : GetAddressArg ("TO") args2 with
    | error e => rfl
    | ok toA => rfl
  by_cases h5 : verb = "DATA"
  · subst h5
    refine Or.inl ?_
    simp only [String.reduceEq, reduceIte, ReadData, ReadLine, WriteSMTP]
    cases hin : conn.input with
    | nil => rfl
    | cons l t =>
      dsimp only
      cases hnm : NewMessage l conn.ToAddr with
      | error e => rfl
      | ok msg =>
        dsimp only
        unfold EndTX
        by_cases htx : conn.transaction = 0
        · rw [if_pos htx]
        · rw [if_neg htx]
          dsimp only
          cases hh : srv.handler msg with
          | none => rfl
          | some e => cases e <;> rfl
  by_cases h6 : verb = "RSET"
  · subst h6
    exact Or.inr rfl
  by_cases h7 : verb = "VRFY"
  · subst h7
    exact Or.inl rfl
  by_cases h8 : verb = "EXPN"
  · subst h8
    exact Or.inl rfl
  by_cases h9 : verb = "HELP"
  · subst h9
    by_cases hh : srv.Help ≠ ""
    · simp only [hh]
      exact Or.inl rfl
    · simp only [hh]
      exact Or.inl rfl
  by_cases h10 : verb = "NOOP"
  · subst h10
    exact Or.inl rfl
  by_cases h11 : verb = "QUIT"
  · subst h11
    exact Or.inl rfl
  by_cases h12 : verb = "STARTTLS"
  · subst h12
    refine Or.inl ?_
    simp only [String.reduceEq, reduceIte]
    by_cases ht : (srv.TLSConfig && srv.tlsHandshakeOk) = true
    · simp only [ht, reduceIte]
      rfl
    · simp only [Bool.not_eq_true] at ht
      simp only [ht, reduceIte]
      rfl
  refine Or.inl ?_
  simp only [h1, h2, h3, h4, h5, h6, h7, h8, h9, h10, h11, hv, h12, reduceIte, if_neg]
  dsimp only [WriteSMTP]
  by_cases herr : 3 < (conn.Errors ++ ["bad input: " ++ verb ++ " " ++ args2]).length
  · rw [if_pos herr]
  · rw [if_neg herr]

/-- The reply lines the EHLO case emits, gathered into one list; proved equal
to the sequential writes of handleCommand's EHLO branch in ehlo_computed. -/
def ehloLines (srv : Server) (conn : Conn) : List OutLine :=
  [OutLine.cont (srv.ServerName ++ " " ++ Greeting conn),
   OutLine.cont ("SIZE " ++ toString srv.MaxSize)]
  ++ (if !conn.IsTLS && srv.TLSConfig then [OutLine.cont ("STARTTLS")] else [])
  ++ (if srv.Auth.isSome then [OutLine.cont (("AUTH ") ++ authEHLOList (srv.Auth.getD []))] else [])
  ++ srv.Extensions.map (fun kv => OutLine.cont (kv.fst ++ " " ++ kv.snd.ehlo))
  ++ [OutLine.reply 250 ("HELP")]

/-- The EHLO case resets the session and appends exactly ehloLines to the
output. -/
theorem ehlo_computed
    (srv : Server) (now : Nat) (conn : Conn) (args : String)
    (hdis : ("EHLO") ∉ srv.Disabled)
    (hext : srv.Extensions.find? (fun kv => kv.fst = "EHLO") = none) :
    handleCommand srv now conn ("EHLO") args =
      ({ Reset conn with output := conn.output ++ ehloLines srv conn }, .readNext) := by
  unfold handleCommand
  simp only [foldl_writeEHLO]
  simp only [String.reduceEq, reduceIte, hext, isAllowListed]
  simp [hdis, ehloLines, Reset, Greeting, WriteEHLO, WriteSMTP]
  by_cases hT1 : conn.IsTLS = false
  all_goals by_cases hT2 : srv.TLSConfig = true
  all_goals by_cases hA : srv.Auth.isSome = true
  all_goals simp [hT1, hT2, hA]

/-- A blank sits inside any string glued from two halves around one. -/
theorem blank_mem_data (a b : String) : ' ' ∈ (a ++ (" ") ++ b).data := by
  show ' ' ∈ a.data ++ [' '] ++ b.data
  simp

/-- No string containing a blank is the bare STARTTLS capability token. -/
theorem ne_starttls_of_blank (s : String) (h : ' ' ∈ s.data) : s ≠ ("STARTTLS") := by
  intro he
  subst he
  exact absurd h (by decide)

/-! ## Session-layer fixtures -/

/-- A principal that accepts any identity. -/
def someUser : AuthUser := { IsUser := fun _ => true, Password := "pw" }

/-- A credential check that accepts anything (as the repository's tests
configure AuthPlain). -/
def authAny : String → String → Option AuthUser := fun _ _ => some someUser

/-- A server with no auth and no TLS. -/
def srvPlainless : Server :=
  { Name := "host", ServerName := "host", MaxSize := 131072, TLSConfig := false,
    tlsHandshakeOk := false, Auth := none, Extensions := [], Disabled := [], Help := "",
    handler := fun _ => none, genID := "tok" }

/-- A server with TLS configured and no auth. -/
def srvTLS : Server := { srvPlainless with TLSConfig := true, tlsHandshakeOk := true }

/-- A server with the PLAIN auth mechanism configured. -/
def srvAuth : Server := { srvPlainless with Auth := some [(("PLAIN"), authPlainHandle authAny)] }

/-- A fresh, unauthenticated cleartext connection. -/
def connPlain : Conn :=
  { LocalAddr := "127.0.0.1:25", IsTLS := false, Errors := [], User := none,
    FromAddr := none, ToAddr := [], transaction := 0, input := [], output := [] }

/-- An authenticated connection. -/
def connU : Conn := { connPlain with IsTLS := true, User := some someUser }

/-- A connection with an open MAIL transaction. -/
def connTx : Conn :=
  { connPlain with transaction := 5, FromAddr := some { Name := "", Address := "s@e.org" } }

/-! ## Claim theorems: the session layer -/

/-- C1 (the failing input): on a cleartext connection of an auth-enabled
server, AUTH PLAIN makes the PLAIN mechanism fail with ErrRequiresTLS — the
538-coded value error — and leaves the user unset, but the reply written to
the client is 500 Authentication failed: the AUTH case only recovers codes
from pointer-typed SMTPErrors, and ErrRequiresTLS is a value. -/
theorem auth_plain_no_tls_replies_500
    (srv : Server) (now : Nat) (conn : Conn) (args : String)
    (mechs : List (String × AuthExtension)) (authFn : String → String → Option AuthUser)
    (hTLS : conn.IsTLS = false)
    (hUser : conn.User = none)
    (hAuth : srv.Auth = some mechs)
    (hmech : (splitN args (' ') 2).headD ("") = ("PLAIN"))
    (hfind : mechs.find? (fun kv => kv.fst = ("PLAIN")) = some (("PLAIN"), authPlainHandle authFn))
    (hdis : ("AUTH") ∉ srv.Disabled)
    (hext : srv.Extensions.find? (fun kv => kv.fst = "AUTH") = none) :
    (∀ params, authPlainHandle authFn conn params = (conn, .error ErrRequiresTLS)) ∧
    ErrRequiresTLS = .smtpVal 538 ("Encryption required for requested authentication mechanism") ∧
    handleCommand srv now conn ("AUTH") args =
      (WriteSMTP conn 500 ("Authentication failed"), .readNext) ∧
    (handleCommand srv now conn ("AUTH") args).fst.User = none := by
  have hplain : ∀ params, authPlainHandle authFn conn params = (conn, .error ErrRequiresTLS) := by
    intro params
    simp [authPlainHandle, hTLS]
  have hup : upper ("PLAIN") = ("PLAIN") := by rfl
  have hauthH : authHandle mechs conn args = (conn, some ErrRequiresTLS) := by
    simp only [authHandle, hmech, hup, hfind, hplain]
  have hmain : handleCommand srv now conn ("AUTH") args =
      (WriteSMTP conn 500 ("Authentication failed"), .readNext) := by
    simp [handleCommand, isAllowListed, hdis, hext, hUser, hAuth, hauthH, ErrRequiresTLS]
  refine ⟨hplain, rfl, hmain, ?_⟩
  rw [hmain]
  simp [WriteSMTP, hUser]

/-- C1 witness: the failing input evaluated on a concrete server and
connection. -/
theorem auth_plain_no_tls_replies_500_witness :
    handleCommand srvAuth 7 connPlain ("AUTH") ("PLAIN AGZvbwBiYXI=") =
      (WriteSMTP connPlain 500 ("Authentication failed"), .readNext) ∧
    (handleCommand srvAuth 7 connPlain ("AUTH") ("PLAIN AGZvbwBiYXI=")).fst.User = none :=
  ⟨(auth_plain_no_tls_replies_500 srvAuth 7 connPlain ("PLAIN AGZvbwBiYXI=")
      [(("PLAIN"), authPlainHandle authAny)] authAny rfl rfl rfl (by rfl) rfl (by decide) rfl).2.2.1,
   (auth_plain_no_tls_replies_500 srvAuth 7 connPlain ("PLAIN AGZvbwBiYXI=")
      [(("PLAIN"), authPlainHandle authAny)] authAny rfl rfl rfl (by rfl) rfl (by decide) rfl).2.2.2⟩

/-- C2 counterexample: on a session with an authenticated user, handling RSET
does not keep the user — Conn.Reset clears it. -/
theorem rset_keeps_user_counterexample :
    ¬ ((handleCommand srvPlainless 7 connU ("RSET") ("")).fst.User = connU.User) := by
  intro h
  exact Option.noConfusion h

/-- C2 (amended): the user is set only by a successful AUTH — every other
built-in verb preserves or clears it — and is cleared by a fresh EHLO and
also by RSET, which replies 250 OK on the reset session. -/
theorem rset_clears_user
    (srv : Server) (now : Nat) (conn : Conn) (args : String)
    (hdisR : ("RSET") ∉ srv.Disabled)
    (hextR : srv.Extensions.find? (fun kv => kv.fst = "RSET") = none)
    (hdisE : ("EHLO") ∉ srv.Disabled)
    (hextE : srv.Extensions.find? (fun kv => kv.fst = "EHLO") = none) :
    handleCommand srv now conn ("RSET") args = (WriteOK (Reset conn), .readNext) ∧
    (handleCommand srv now conn ("RSET") args).fst.User = none ∧
    (handleCommand srv now conn ("EHLO") args).fst.User = none ∧
    (∀ verb args2, verb ≠ ("AUTH") →
      srv.Extensions.find? (fun kv => kv.fst = verb) = none →
      ((handleCommand srv now conn verb args2).fst.User = conn.User ∨
       (handleCommand srv now conn verb args2).fst.User = none)) := by
  have hR : handleCommand srv now conn ("RSET") args = (WriteOK (Reset conn), .readNext) := by
    simp [handleCommand, isAllowListed, hdisR, hextR]
  refine ⟨hR, ?_, ?_, ?_⟩
  · rw [hR]
    simp [WriteOK, WriteSMTP, Reset]
  · rw [ehlo_computed srv now conn args hdisE hextE]
    simp [Reset]
  · intro verb args2 hv hx
    exact user_frame srv now conn verb args2 hv hx

/-- C2 witness: RSET on the authenticated session replies 250 OK and unsets
the user. -/
theorem rset_clears_user_witness :
    handleCommand srvPlainless 7 connU ("RSET") ("") = (WriteOK (Reset connU), .readNext) ∧
    (handleCommand srvPlainless 7 connU ("RSET") ("")).fst.User = none :=
  ⟨(rset_clears_user srvPlainless 7 connU ("") (by decide) rfl (by decide) rfl).1,
   (rset_clears_user srvPlainless 7 connU ("") (by decide) rfl (by decide) rfl).2.1⟩

/-- C3: a MAIL command with a well-formed FROM path on a session whose
transaction is already open is answered 501 Transaction unsuccessful and
leaves the reverse-path, the recipients and the transaction unchanged. -/
theorem mail_in_open_tx_rejected
    (srv : Server) (now : Nat) (conn : Conn) (args : String) (addr : Address)
    (htx : conn.transaction ≠ 0)
    (hparse : GetAddressArg ("FROM") args = .ok addr)
    (hgate : srv.Auth = none ∨ ∃ u, conn.User = some u)
    (huser : ∀ u, conn.User = some u → u.IsUser addr.Address = true)
    (hdis : ("MAIL") ∉ srv.Disabled)
    (hext : srv.Extensions.find? (fun kv => kv.fst = "MAIL") = none) :
    handleCommand srv now conn ("MAIL") args =
      (WriteSMTP conn 501 ("Transaction unsuccessful"), .readNext) ∧
    (handleCommand srv now conn ("MAIL") args).fst.User = conn.User ∧
    (handleCommand srv now conn ("MAIL") args).fst.FromAddr = conn.FromAddr ∧
    (handleCommand srv now conn ("MAIL") args).fst.ToAddr = conn.ToAddr ∧
    (handleCommand srv now conn ("MAIL") args).fst.transaction = conn.transaction := by
  have hgateF : (srv.Auth.isSome && conn.User.isNone) = false := by
    rcases hgate with h | ⟨u, h⟩ <;> simp [h]
  have hcond : (match conn.User with | none => true | some u => u.IsUser addr.Address) = true := by
    cases h : conn.User with
    | none => rfl
    | some u => exact huser u h
  have hmain : handleCommand srv now conn ("MAIL") args =
      (WriteSMTP conn 501 ("Transaction unsuccessful"), .readNext) := by
    simp [handleCommand, hdis, hext, hparse, hgateF, hcond, StartTX, htx, errText, ErrTransaction]
  refine ⟨hmain, ?_, ?_, ?_, ?_⟩ <;> rw [hmain] <;> simp [WriteSMTP]

/-- C3 witness: a second MAIL on a session with transaction stamp 5 is
rejected with 501 and the state survives. -/
theorem mail_in_open_tx_rejected_witness :
    handleCommand srvPlainless 7 connTx ("MAIL") ("FROM:<x@y.com>") =
      (WriteSMTP connTx 501 ("Transaction unsuccessful"), .readNext) ∧
    (handleCommand srvPlainless 7 connTx ("MAIL") ("FROM:<x@y.com>")).fst.transaction = connTx.transaction :=
  ⟨(mail_in_open_tx_rejected srvPlainless 7 connTx ("FROM:<x@y.com>")
      { Name := "", Address := "x@y.com" } (by decide) (by rfl) (Or.inl rfl)
      (fun u h => nomatch h) (by decide) rfl).1,
   (mail_in_open_tx_rejected srvPlainless 7 connTx ("FROM:<x@y.com>")
      { Name := "", Address := "x@y.com" } (by decide) (by rfl) (Or.inl rfl)
      (fun u h => nomatch h) (by decide) rfl).2.2.2.2⟩

/-- C9: the EHLO reply is zero or more continuation lines closed by exactly
one 250 HELP reply line; the STARTTLS capability appears iff TLS is
configured and the session is not yet TLS; the AUTH capability line appears
iff auth is configured and the session — reset by EHLO before the
capabilities are computed — has no authenticated user. -/
theorem ehlo_reply_shape
    (srv : Server) (now : Nat) (conn : Conn) (args : String)
    (hdis : ("EHLO") ∉ srv.Disabled)
    (hext : srv.Extensions.find? (fun kv => kv.fst = "EHLO") = none) :
    (handleCommand srv now conn ("EHLO") args).fst.output = conn.output ++ ehloLines srv conn ∧
    (handleCommand srv now conn ("EHLO") args).fst.User = none ∧
    (∃ pre, ehloLines srv conn = pre ++ [OutLine.reply 250 ("HELP")] ∧
      ∀ l ∈ pre, ∃ t, l = OutLine.cont t) ∧
    (OutLine.cont ("STARTTLS") ∈ ehloLines srv conn ↔ (srv.TLSConfig = true ∧ conn.IsTLS = false)) ∧
    ((∃ mechs, srv.Auth = some mechs ∧
        OutLine.cont (("AUTH ") ++ authEHLOList mechs) ∈ ehloLines srv conn)
      ↔ (srv.Auth.isSome = true ∧ (handleCommand srv now conn ("EHLO") args).fst.User = none)) := by
  have hE := ehlo_computed srv now conn args hdis hext
  have hUser : (handleCommand srv now conn ("EHLO") args).fst.User = none := by
    rw [hE]
    simp [Reset]
  refine ⟨by rw [hE], hUser, ?_, ?_, ?_⟩
  · refine ⟨[OutLine.cont (srv.ServerName ++ " " ++ Greeting conn),
       OutLine.cont ("SIZE " ++ toString srv.MaxSize)]
      ++ (if !conn.IsTLS && srv.TLSConfig then [OutLine.cont ("STARTTLS")] else [])
      ++ (if srv.Auth.isSome then [OutLine.cont (("AUTH ") ++ authEHLOList (srv.Auth.getD []))] else [])
      ++ srv.Extensions.map (fun kv => OutLine.cont (kv.fst ++ " " ++ kv.snd.ehlo)), ?_, ?_⟩
    · simp [ehloLines]
    · intro l hl
      simp only [List.mem_append, List.mem_map] at hl
      rcases hl with ((hab | hc) | hd) | he
      · simp only [List.mem_cons, List.mem_singleton] at hab
        rcases hab with h | h
        · exact ⟨_, h⟩
        · rcases h with h | h
          · exact ⟨_, h⟩
          · exact absurd h (List.not_mem_nil l)
      · split at hc
        · simp only [List.mem_singleton] at hc
          exact ⟨_, hc⟩
        · exact absurd hc (List.not_mem_nil l)
      · split at hd
        · simp only [List.mem_singleton] at hd
          exact ⟨_, hd⟩
        · exact absurd hd (List.not_mem_nil l)
      · obtain ⟨kv, _, h⟩ := he
        exact ⟨_, h.symm⟩
  · constructor
    · intro hm
      by_cases hT : (!conn.IsTLS && srv.TLSConfig) = true
      · have h2 : (!conn.IsTLS) = true ∧ srv.TLSConfig = true := by
          rw [Bool.and_eq_true] at hT
          exact hT
        refine ⟨h2.2, ?_⟩
        cases hI : conn.IsTLS
        · rfl
        · rw [hI] at h2
          exact absurd h2.1 (by decide)
      · exfalso
        simp [ehloLines, hT] at hm
        rcases hm with h | h | ⟨_, h⟩ | ⟨a, b, _, h⟩
        · exact absurd h.symm (ne_starttls_of_blank _ (blank_mem_data srv.ServerName (Greeting conn)))
        · exact absurd h.symm
            (ne_starttls_of_blank (("SIZE") ++ (" ") ++ toString srv.MaxSize)
              (blank_mem_data ("SIZE") (toString srv.MaxSize)))
        · exact absurd h.symm
            (ne_starttls_of_blank (("AUTH") ++ (" ") ++ authEHLOList (srv.Auth.getD []))
              (blank_mem_data ("AUTH") (authEHLOList (srv.Auth.getD []))))
        · exact absurd h (ne_starttls_of_blank _ (blank_mem_data a b.ehlo))
    · intro hp
      simp [ehloLines, hp.1, hp.2]
  · constructor
    · rintro ⟨mechs, hA, _⟩
      exact ⟨by simp [hA], hUser⟩
    · rintro ⟨hA, _⟩
      obtain ⟨mechs, hAe⟩ := Option.isSome_iff_exists.mp hA
      exact ⟨mechs, hAe, by simp [ehloLines, hAe]⟩

/-- C9 witness: on a TLS-configured server and a cleartext session, the EHLO
reply holds the STARTTLS capability line. -/
theorem ehlo_reply_shape_witness :
    (handleCommand srvTLS 7 connPlain ("EHLO") ("")).fst.output =
      connPlain.output ++ ehloLines srvTLS connPlain ∧
    OutLine.cont ("STARTTLS") ∈ ehloLines srvTLS connPlain :=
  ⟨(ehlo_reply_shape srvTLS 7 connPlain ("") (by decide) rfl).1,
   ((ehlo_reply_shape srvTLS 7 connPlain ("") (by decide) rfl).2.2.2.1).mpr ⟨rfl, rfl⟩⟩

/-! ## FindBody fixtures and claims -/

/-- A message whose sole top-level type is text/html. -/
def htmlMsg : Message :=
  { To := [], From := { Name := "", Address := "a@b" },
    Header := [("Content-Type", "text/html")], Subject := "",
    RawBody := "<b>x</b>", messageID := "", genMessageID := false, rcpt := [] }

/-- A message whose top level is multipart/alternative but whose body holds
no boundary, hence no parts. -/
def emptyAltMsg : Message :=
  { To := [], From := { Name := "", Address := "a@b" },
    Header := [("Content-Type", "multipart/alternative; boundary=x")], Subject := "",
    RawBody := "", messageID := "", genMessageID := false, rcpt := [] }

/-- C6 counterexample: the top level of this message is multipart/alternative
— an alternative section exists and lacks text/plain — yet FindBody fails
with the "No multipart/alternative section found" message, not the
"No text/plain content" message the claim's failure mapping names for an
alternative lacking the type. -/
theorem findBody_empty_alternative_counterexample :
    parseMediaType (getHeader emptyAltMsg.Header ("Content-Type")) =
      .ok (("multipart/alternative"), [(("boundary"), ("x"))]) ∧
    Parts emptyAltMsg = .ok [] ∧
    Plain emptyAltMsg = .error ("No multipart/alternative section found, can\x27t find text/plain") :=
  ⟨rfl, rfl, rfl⟩

/-- C6 (amended): FindBody's search order — top-level media type first, then
a top-level multipart/alternative, then the children of the first
multipart/alternative part — with the failure messages keyed on the computed
alternatives list: empty (no alternative part, or an alternative with no
parts) gives "No multipart/alternative section found", a nonempty list
lacking the type gives "No <ct> content found".  In particular a sole
top-level text/html body is returned by HTML while Plain fails. -/
theorem findBody_search_order
    (m : Message) (ct mt : String) (ps : List (String × String)) (parts : List (Option Part))
    (hmt : parseMediaType (getHeader m.Header ("Content-Type")) = .ok (mt, ps))
    (hparts : Parts m = .ok parts) :
    (mt = ct → ∀ p rest, parts = some p :: rest → FindBody m ct = .ok p.Body) ∧
    (mt = ct → parts = [] → FindBody m ct = .error (ct ++ (" found, but no data in body"))) ∧
    (mt ≠ ct → mt = ("multipart/alternative") → parts ≠ [] →
      FindBody m ct =
        (match findTypeInParts ct parts with
         | .error e => .error e
         | .ok (some p) => .ok p.Body
         | .ok none => .error (("No ") ++ ct ++ (" content found in multipart/alternative section")))) ∧
    (mt ≠ ct → mt = ("multipart/alternative") → parts = [] →
      FindBody m ct = .error (("No multipart/alternative section found, can\x27t find ") ++ ct)) ∧
    (mt ≠ ct → mt ≠ ("multipart/alternative") →
      findTypeInParts ("multipart/alternative") parts = .ok none →
      FindBody m ct = .error (("No multipart/alternative section found, can\x27t find ") ++ ct)) ∧
    (mt ≠ ct → mt ≠ ("multipart/alternative") → ∀ alt,
      findTypeInParts ("multipart/alternative") parts = .ok (some alt) → alt.Children ≠ [] →
      FindBody m ct =
        (match findTypeInParts ct alt.Children with
         | .error e => .error e
         | .ok (some p) => .ok p.Body
         | .ok none => .error (("No ") ++ ct ++ (" content found in multipart/alternative section")))) ∧
    (mt ≠ ct → mt ≠ ("multipart/alternative") → ∀ alt,
      findTypeInParts ("multipart/alternative") parts = .ok (some alt) → alt.Children = [] →
      FindBody m ct = .error (("No multipart/alternative section found, can\x27t find ") ++ ct)) ∧
    (HTML htmlMsg = .ok ("<b>x</b>") ∧
     Plain htmlMsg = .error ("No multipart/alternative section found, can\x27t find text/plain")) := by
  refine ⟨?_, ?_, ?_, ?_, ?_, ?_, ?_, rfl, rfl⟩
  · intro h p rest hp
    unfold FindBody
    rw [hmt, hparts, hp]
    simp [h]
  · intro h hp
    unfold FindBody
    rw [hmt, hparts, hp]
    simp [h]
  · intro hne halt hnil
    subst halt
    unfold FindBody
    rw [hmt, hparts]
    cases hf : findTypeInParts ct parts with
    | error e => simp [hne, hnil, hf]
    | ok o => cases o <;> simp [hne, hnil, hf]
  · intro hne halt hp
    subst halt
    subst hp
    unfold FindBody
    rw [hmt, hparts]
    simp [hne]
  · intro hne hnalt hf
    unfold FindBody
    rw [hmt, hparts]
    simp [hne, hnalt, hf]
  · intro hne hnalt alt hf hch
    unfold FindBody
    rw [hmt, hparts]
    cases hg : findTypeInParts ct alt.Children with
    | error e => simp [hne, hnalt, hf, hg, hch]
    | ok o => cases o <;> simp [hne, hnalt, hf, hg, hch]
  · intro hne hnalt alt hf hch
    unfold FindBody
    rw [hmt, hparts]
    simp [hne, hnalt, hf, hch]

/-- C6 witness: FindBody on the text/html message returns the body. -/
theorem findBody_search_order_witness :
    FindBody htmlMsg ("text/html") = .ok ("<b>x</b>") :=
  (findBody_search_order htmlMsg ("text/html") ("text/html") []
    [some { Header := [(("Content-Type"), ("text/html"))], Body := ("<b>x</b>"), Children := [] }]
    (by rfl) (by rfl)).1 rfl
    { Header := [(("Content-Type"), ("text/html"))], Body := ("<b>x</b>"), Children := [] } []
    (by rfl)

end Smtpd
